import Mathlib

/-!
# Verification of the drum-notation backend's job orchestrator and audio engine

A shallow embedding, in Lean 4, of the job service (`app/modules/jobs/service.py`),
the background worker (`app/modules/jobs/worker.py`), the drum detector
(`app/modules/audio_processing/detection.py`) and the spectral separator
(`app/modules/audio_processing/separation.py`), together with theorems settling
the specification's claims about them.

Conventions of the embedding:
* machine floats become `ℚ` (exact rational arithmetic); `np.std`, which needs a
  square root, is handled through `ℝ` in the one theorem that mentions it;
* timestamps (`datetime.utcnow()`) become `ℚ` values passed in as `now`;
* database rows become records collected in lists; a SQLAlchemy `update ... where`
  becomes a `List.map` guarded on the `where` condition;
* `HTTPException` and SQLAlchemy's `MultipleResultsFound` become an error type
  threaded through `Except`;
* Python's stable `sort` / `np.sort` become `List.insertionSort` (a stable sort).
-/

/-- Errors surfaced by the job service: `HTTPException(status, detail)` raised by
the service itself, and `MultipleResultsFound` raised by SQLAlchemy's
`scalar_one_or_none` when a query yields more than one row. -/
inductive ApiError where
  | http (status : Nat) (detail : String)
  | multipleResultsFound
  deriving DecidableEq, Repr

/-- A row of the `videos` table, restricted to the columns the job service reads
(`VideoRepository.get_by_id` filters on `deleted_at IS NULL`). -/
structure Video where
  id : Nat
  user_id : Nat
  filename : String
  deleted_at : Option ℚ
  deriving DecidableEq, Repr

/-- A row of the `processing_jobs` table (`app/modules/jobs/models.py`):
`job_type ∈ {audio_extraction, audio_analysis, drum_detection}`,
`status ∈ {pending, running, completed, failed}` are kept as strings, as in the
source. -/
structure ProcessingJob where
  id : Nat
  video_id : Nat
  job_type : String
  status : String
  progress : ℚ
  error_message : Option String
  started_at : Option ℚ
  finished_at : Option ℚ
  created_at : ℚ
  deleted_at : Option ℚ
  deriving DecidableEq, Repr

/-- The slice of the database the job service touches. -/
structure JobsDB where
  videos : List Video
  jobs : List ProcessingJob
  deriving DecidableEq, Repr

/-- `VideoRepository.get_by_id`: select the video with this id whose
`deleted_at` is NULL. -/
def videoGetById (db : JobsDB) (videoId : Nat) : Option Video :=
  db.videos.find? (fun v => v.id == videoId && v.deleted_at == none)

/-- The row lookup inside `JobService.get_job_by_id`: select the job with this
id whose `deleted_at` is NULL. -/
def jobFind (db : JobsDB) (jobId : Nat) : Option ProcessingJob :=
  db.jobs.find? (fun j => j.id == jobId && j.deleted_at == none)

/-- `JobService.get_job_by_id(db, job_id, user_id)`: returns `none` when no such
non-deleted job exists; when a `user_id` is supplied, raises 403 unless that
user owns the job's video. -/
def getJobById (db : JobsDB) (jobId : Nat) (userId : Option Nat) :
    Except ApiError (Option ProcessingJob) :=
  match jobFind db jobId with
  | none => .ok none
  | some job =>
    match userId with
    | none => .ok (some job)
    | some uid =>
      match videoGetById db job.video_id with
      | none => .error (.http 403 "Not authorized to view this job")
      | some v =>
        if v.user_id == uid then .ok (some job)
        else .error (.http 403 "Not authorized to view this job")

/-- `JobService.get_job_by_video_and_type(db, video_id, job_type)`: selects all
non-deleted jobs of that type for that video ordered by `created_at`
descending, then applies `scalar_one_or_none`, which returns the row when there
is exactly one, `None` when there is none, and raises `MultipleResultsFound`
otherwise. -/
def getJobByVideoAndType (db : JobsDB) (videoId : Nat) (jobType : String) :
    Except ApiError (Option ProcessingJob) :=
  let rows := (db.jobs.filter (fun j =>
    j.video_id == videoId && j.job_type == jobType && j.deleted_at == none))
  let ordered := List.insertionSort (fun a b => b.created_at ≤ a.created_at) rows
  match ordered with
  | [] => .ok none
  | [j] => .ok (some j)
  | _ :: _ :: _ => .error .multipleResultsFound

/-- `JobProcessor.create_job`: inserts a fresh `pending` job with progress 0.
The database supplies the fresh primary key and the clock the creation time;
the embedding takes them as the arguments `newId` and `now`. -/
def createJob (db : JobsDB) (videoId : Nat) (jobType : String)
    (newId : Nat) (now : ℚ) : JobsDB × ProcessingJob :=
  let job : ProcessingJob :=
    { id := newId, video_id := videoId, job_type := jobType, status := "pending",
      progress := 0, error_message := none, started_at := none,
      finished_at := none, created_at := now, deleted_at := none }
  ({ db with jobs := db.jobs ++ [job] }, job)

/-- `JobService.create_audio_extraction_job`: 404 when the video is missing,
403 when not owned by the caller, 400 when an `audio_extraction` job for this
video is already `pending` or `running`; otherwise creates the job. -/
def createAudioExtractionJob (db : JobsDB) (videoId userId : Nat)
    (newId : Nat) (now : ℚ) : Except ApiError (JobsDB × ProcessingJob) :=
  match videoGetById db videoId with
  | none => .error (.http 404 "Video not found")
  | some v =>
    if v.user_id == userId then
      match getJobByVideoAndType db videoId "audio_extraction" with
      | .error e => .error e
      | .ok existing =>
        match existing with
        | some j =>
          if j.status == "pending" || j.status == "running" then
            .error (.http 400 "Audio extraction job already in progress for this video")
          else .ok (createJob db videoId "audio_extraction" newId now)
        | none => .ok (createJob db videoId "audio_extraction" newId now)
    else .error (.http 403 "Not authorized to process this video")

/-- `JobService.create_audio_analysis_job`: 404/403 as above, 400 unless the
video's `audio_extraction` job exists and is `completed`; otherwise creates the
job.  There is no check against an existing `audio_analysis` job. -/
def createAudioAnalysisJob (db : JobsDB) (videoId userId : Nat)
    (newId : Nat) (now : ℚ) : Except ApiError (JobsDB × ProcessingJob) :=
  match videoGetById db videoId with
  | none => .error (.http 404 "Video not found")
  | some v =>
    if v.user_id == userId then
      match getJobByVideoAndType db videoId "audio_extraction" with
      | .error e => .error e
      | .ok audioJob =>
        match audioJob with
        | some j =>
          if j.status == "completed" then
            .ok (createJob db videoId "audio_analysis" newId now)
          else .error (.http 400 "Audio must be extracted before analysis can begin")
        | none => .error (.http 400 "Audio must be extracted before analysis can begin")
    else .error (.http 403 "Not authorized to process this video")

/-- `JobService.create_drum_detection_job`: same gating as audio analysis, and
likewise no check against an existing `drum_detection` job. -/
def createDrumDetectionJob (db : JobsDB) (videoId userId : Nat)
    (newId : Nat) (now : ℚ) : Except ApiError (JobsDB × ProcessingJob) :=
  match videoGetById db videoId with
  | none => .error (.http 404 "Video not found")
  | some v =>
    if v.user_id == userId then
      match getJobByVideoAndType db videoId "audio_extraction" with
      | .error e => .error e
      | .ok audioJob =>
        match audioJob with
        | some j =>
          if j.status == "completed" then
            .ok (createJob db videoId "drum_detection" newId now)
          else .error (.http 400 "Audio must be extracted before drum detection can begin")
        | none => .error (.http 400 "Audio must be extracted before drum detection can begin")
    else .error (.http 403 "Not authorized to process this video")

/-- `JobService.cancel_job`: 404 when the job is missing, 403 when not owned,
400 unless `status ∈ {pending, running}`; otherwise updates the row to
`status = failed`, `error_message = "Job cancelled by user"`,
`finished_at = now`. -/
def cancelJob (db : JobsDB) (jobId userId : Nat) (now : ℚ) :
    Except ApiError JobsDB :=
  match getJobById db jobId (some userId) with
  | .error e => .error e
  | .ok none => .error (.http 404 "Job not found")
  | .ok (some job) =>
    if job.status == "pending" || job.status == "running" then
      .ok { db with jobs := db.jobs.map (fun j =>
        if j.id == jobId then
          { j with status := "failed",
                   error_message := some "Job cancelled by user",
                   finished_at := some now }
        else j) }
    else .error (.http 400 ("Cannot cancel job with status: " ++ job.status))

/-- `JobService.retry_job`: 404 when the job is missing, 403 when not owned,
400 unless `status = failed`; otherwise updates the row to `status = pending`,
`progress = 0`, clearing `error_message`, `started_at` and `finished_at`, and
returns the refreshed row. -/
def retryJob (db : JobsDB) (jobId userId : Nat) :
    Except ApiError (JobsDB × Option ProcessingJob) :=
  match getJobById db jobId (some userId) with
  | .error e => .error e
  | .ok none => .error (.http 404 "Job not found")
  | .ok (some job) =>
    if job.status == "failed" then
      let db' : JobsDB := { db with jobs := db.jobs.map (fun j =>
        if j.id == jobId then
          { j with status := "pending", progress := 0, error_message := none,
                   started_at := none, finished_at := none }
        else j) }
      .ok (db', jobFind db' jobId)
    else .error (.http 400 ("Cannot retry job with status: " ++ job.status))

/-! ## Background worker (`app/modules/jobs/worker.py`) -/

/-- `JobProcessor.max_retries`, set in `__init__`. -/
def maxRetries : Nat := 3

/-- The retry counter read in `JobProcessor._handle_job_error`; the source sets
`current_retries = 0` unconditionally (the TODO to track it in the database is
unimplemented). -/
def currentRetries : Nat := 0

/-- `JobProcessor._update_job_status` applied to a single job row: the update
dictionary always carries `status` and adds `started_at` / `finished_at` /
`progress` only when the corresponding argument is not `None`. -/
def updateJobStatus (j : ProcessingJob) (status : String)
    (startedAt finishedAt : Option ℚ) (progress : Option ℚ) : ProcessingJob :=
  let j := { j with status := status }
  let j := match startedAt with
    | some t => { j with started_at := some t }
    | none => j
  let j := match finishedAt with
    | some t => { j with finished_at := some t }
    | none => j
  match progress with
  | some p => { j with progress := p }
  | none => j

/-- `JobProcessor._handle_job_error`: when `current_retries < max_retries` the
job is reset to `pending` with progress 0 (a retry); only otherwise is it
marked `failed` with `finished_at = now` and the error message recorded. -/
def handleJobError (j : ProcessingJob) (errorMessage : String) (now : ℚ) :
    ProcessingJob :=
  if currentRetries < maxRetries then
    updateJobStatus j "pending" none none (some 0)
  else
    let j := updateJobStatus j "failed" none (some now) none
    { j with error_message := some errorMessage }

/-- `JobProcessor._process_job`: marks the job `running` with
`started_at = now`, runs the stage handler, on success marks `completed` with
`progress = 100` and `finished_at = now`, and on a handler exception calls
`_handle_job_error` and re-raises (the second component carries the re-raised
message). -/
def processJob (j : ProcessingJob) (handlerResult : Except String Unit)
    (now : ℚ) : ProcessingJob × Option String :=
  let j := updateJobStatus j "running" (some now) none none
  match handlerResult with
  | .ok _ => (updateJobStatus j "completed" none (some now) (some 100), none)
  | .error e => (handleJobError j e now, some e)

/-- The per-job body of `JobProcessor.process_pending_jobs`: `_process_job` is
called, and when it re-raises, the surrounding `except` calls
`_handle_job_error` a second time. -/
def pollDispatchJob (j : ProcessingJob) (handlerResult : Except String Unit)
    (now : ℚ) : ProcessingJob :=
  match processJob j handlerResult now with
  | (j', none) => j'
  | (j', some e) => handleJobError j' e now

/-! ## Pipeline status (`JobService.get_processing_pipeline_status`) -/

/-- A stage entry produced by `JobService._get_stage_status`: the latest job's
status and progress (`"not_started"` with progress 0 when the stage has no
jobs). -/
structure StageStatus where
  status : String
  progress : ℚ
  deriving DecidableEq, Repr

/-- `JobService._get_stage_status`: the most recent job by `created_at`
(Python's `max` keeps the earliest of ties), or `not_started` when the stage
has no jobs. -/
def getStageStatus (jobs : List ProcessingJob) : StageStatus :=
  match jobs with
  | [] => { status := "not_started", progress := 0 }
  | j :: js =>
    let latest := (j :: js).foldl
      (fun acc b => if acc.created_at < b.created_at then b else acc) j
    { status := latest.status, progress := latest.progress }

/-- The `overall_progress` computation of
`JobService.get_processing_pipeline_status`: starts at 0, adds 33.3 when
`audio_extraction` is completed, 33.3 more when `audio_analysis` is also
completed, and is set to 100.0 when `drum_detection` is completed as well. -/
def overallProgress (ext ana det : StageStatus) : ℚ :=
  let p0 : ℚ := 0
  if ext.status == "completed" then
    let p1 := p0 + 333/10
    if ana.status == "completed" then
      let p2 := p1 + 333/10
      if det.status == "completed" then (100 : ℚ) else p2
    else p1
  else p0

/-- Definition following the spec's words, for comparison with
`overallProgress`: "overall progress computed as the sum of completed-stage
weights (each of the three stages contributes equal weight) plus the
in-progress stage's own progress scaled by its weight", with progress on the
0–100 scale used by the job rows. -/
def specOverallProgress (ext ana det : StageStatus) : ℚ :=
  let w : ℚ := 100/3
  (if ext.status == "completed" then w else 0)
    + (if ana.status == "completed" then w else 0)
    + (if det.status == "completed" then w else 0)
    + (if ext.status == "running" then ext.progress / 100 * w else 0)
    + (if ana.status == "running" then ana.progress / 100 * w else 0)
    + (if det.status == "running" then det.progress / 100 * w else 0)

/-! ## Drum detection (`app/modules/audio_processing/detection.py`) -/

/-- A detected drum event (`DrumEvent.__init__`). -/
structure DrumEvent where
  timestamp : ℚ
  drum_type : String
  confidence : ℚ
  velocity : ℚ
  frequency : Option ℚ
  duration : Option ℚ
  deriving DecidableEq, Repr

/-- `DrumDetectionConfig.onset_min_distance` default: 0.05 s. -/
def onsetMinDistance : ℚ := 1/20

/-- `DrumDetectionConfig.classification_threshold` default: 0.6. -/
def classificationThreshold : ℚ := 3/5

/-- `DrumDetectionConfig.velocity_threshold` default: 0.1. -/
def velocityThreshold : ℚ := 1/10

/-- The merge loop of `DrumDetector._detect_onsets` after the candidate times
have been sorted: a candidate is kept only when it lies at least `minDist`
past the most recently kept one (`last`). -/
def mergeOnsetsFrom (minDist : ℚ) : ℚ → List ℚ → List ℚ
  | _, [] => []
  | last, t :: ts =>
    if minDist ≤ t - last then t :: mergeOnsetsFrom minDist t ts
    else mergeOnsetsFrom minDist last ts

/-- The dedup/merge stage of `DrumDetector._detect_onsets`: sort the pooled
candidate times ascending, then keep a candidate only when it is at least
`minDist` past the most recently kept candidate (the first sorted candidate is
always kept, and an empty pool yields an empty output). -/
def detectOnsetsMerge (minDist : ℚ) (times : List ℚ) : List ℚ :=
  match List.insertionSort (· ≤ ·) times with
  | [] => []
  | t :: ts => t :: mergeOnsetsFrom minDist t ts

/-- The per-onset feature dictionary, restricted to the scalar entries the
classifier reads (`DrumDetector._extract_onset_features`); one per-band energy
per entry of `DrumDetectionConfig.frequency_bands`. -/
structure OnsetFeatures where
  spectral_centroid : ℚ
  spectral_rolloff : ℚ
  zero_crossing_rate : ℚ
  rms_energy : ℚ
  kick_energy : ℚ
  snare_energy : ℚ
  hihat_energy : ℚ
  crash_energy : ℚ
  tom_low_energy : ℚ
  tom_mid_energy : ℚ
  tom_high_energy : ℚ
  deriving DecidableEq, Repr

/-- The keys of `DrumDetectionConfig.frequency_bands`, in insertion order. -/
def drumTypes : List String :=
  ["kick", "snare", "hihat", "crash", "tom_low", "tom_mid", "tom_high"]

/-- Lookup of `features[f"{drum_type}_energy"]` (0 for an unknown key, matching
the `scores[drum_type] = 0.0` fallback). -/
def bandEnergy (f : OnsetFeatures) : String → ℚ
  | "kick" => f.kick_energy
  | "snare" => f.snare_energy
  | "hihat" => f.hihat_energy
  | "crash" => f.crash_energy
  | "tom_low" => f.tom_low_energy
  | "tom_mid" => f.tom_mid_energy
  | "tom_high" => f.tom_high_energy
  | _ => 0

/-- The score of one drum type in `DrumDetector._classify_single_event`: the
band energy, with the corrective multipliers (×1.5 kick when centroid < 200,
×1.3 snare when centroid ∈ [150, 400] and zero-crossing rate > 0.1, ×1.4
hi-hat when centroid > 5000 and zero-crossing rate > 0.15, ×1.2 crash when
rolloff > 8000). -/
def adjustedScore (f : OnsetFeatures) (t : String) : ℚ :=
  let base := bandEnergy f t
  if t == "kick" && decide (f.spectral_centroid < 200) then base * (3/2)
  else if t == "snare" && decide (150 ≤ f.spectral_centroid)
      && decide (f.spectral_centroid ≤ 400)
      && decide (1/10 < f.zero_crossing_rate) then base * (13/10)
  else if t == "hihat" && decide (5000 < f.spectral_centroid)
      && decide (3/20 < f.zero_crossing_rate) then base * (7/5)
  else if t == "crash" && decide (8000 < f.spectral_rolloff) then base * (6/5)
  else base

/-- The `scores` dictionary of `DrumDetector._classify_single_event`, as an
association list in key-insertion order. -/
def scoresList (f : OnsetFeatures) : List (String × ℚ) :=
  drumTypes.map (fun t => (t, adjustedScore f t))

/-- Python's `max(scores.keys(), key=lambda k: scores[k])` paired with its
score: the first key, in insertion order, attaining the maximal score. -/
def argmaxFirst (p : String × ℚ) (ps : List (String × ℚ)) : String × ℚ :=
  ps.foldl (fun best q => if best.2 < q.2 then q else best) p

/-- `DrumDetector._classify_single_event`: computes the adjusted scores;
returns `("unknown", 0)` when the dictionary is empty or all scores are 0,
otherwise the arg-max drum type with confidence
`min(1.0, 2 * max_score / total)` (`0` when the total is not positive). -/
def classifySingleEvent (f : OnsetFeatures) : String × ℚ :=
  let scores := scoresList f
  match scores with
  | [] => ("unknown", 0)
  | p :: ps =>
    let maxScore := (ps.map Prod.snd).foldl max p.2
    if maxScore = 0 then ("unknown", 0)
    else
      let best := argmaxFirst p ps
      let total := (scores.map Prod.snd).sum
      let confidence := if 0 < total then best.2 / total else 0
      (best.1, min 1 (confidence * 2))

/-- The per-onset body of `DrumDetector._classify_drum_events`: classify,
derive `velocity = min(1.0, 10 * rms_energy)` and a frequency estimate for
tonal drums, and emit the event only when the confidence reaches the
classification threshold. -/
def classifyOnset (threshold : ℚ) (onsetTime : ℚ) (f : OnsetFeatures) :
    Option DrumEvent :=
  let c := classifySingleEvent f
  let velocity := min 1 (f.rms_energy * 10)
  let frequency :=
    if c.1 == "tom_low" || c.1 == "tom_mid" || c.1 == "tom_high" || c.1 == "kick"
    then some f.spectral_centroid else none
  if threshold ≤ c.2 then
    some { timestamp := onsetTime, drum_type := c.1, confidence := c.2,
           velocity := velocity, frequency := frequency, duration := some (1/10) }
  else none

/-- One step of the dedup scan in `DrumDetector._post_process_events`: an event
is dropped when, among the previous 5 kept events, some event has the same
drum type, a timestamp within 20 ms, and a velocity within 0.1. -/
def dedupStep (acc : List DrumEvent) (e : DrumEvent) : List DrumEvent :=
  let window := acc.drop (acc.length - 5)
  let isDup := window.any (fun p =>
    decide (e.timestamp - p.timestamp < 1/50) && e.drum_type == p.drum_type
      && decide (|e.velocity - p.velocity| < 1/10))
  if isDup then acc else acc ++ [e]

/-- The dedup scan of `DrumDetector._post_process_events`. -/
def dedupEvents (events : List DrumEvent) : List DrumEvent :=
  events.foldl dedupStep []

/-- The velocity-smoothing loop of `DrumDetector._post_process_events` from
index 1 on: when the current event is less than 100 ms after the previous kept
event and of the same drum type, the current event's velocity is assigned the
average of the previous event's (possibly already smoothed) velocity and its
own; the previous event is not modified. -/
def smoothRun (prev : DrumEvent) : List DrumEvent → List DrumEvent
  | [] => []
  | c :: cs =>
    let c' :=
      if decide (c.timestamp - prev.timestamp < 1/10) && c.drum_type == prev.drum_type
      then { c with velocity := (prev.velocity + c.velocity) / 2 }
      else c
    c' :: smoothRun c' cs

/-- The velocity-smoothing stage of `DrumDetector._post_process_events`
(the `len > 1` guard in the source is behaviourally redundant: on lists of
length ≤ 1 the loop body never runs). -/
def smoothVelocities : List DrumEvent → List DrumEvent
  | [] => []
  | e :: es => e :: smoothRun e es

/-- `DrumDetector._post_process_events`: return the empty list unchanged;
otherwise sort by timestamp, drop events below the velocity threshold,
deduplicate, and smooth velocities, in that order. -/
def postProcessEvents (events : List DrumEvent) : List DrumEvent :=
  if events = [] then events
  else
    let sorted := List.insertionSort (fun a b => a.timestamp ≤ b.timestamp) events
    let kept := sorted.filter (fun e => velocityThreshold ≤ e.velocity)
    let deduped := dedupEvents kept
    smoothVelocities deduped

/-! ## Spectral separation (`app/modules/audio_processing/separation.py`) -/

/-- `np.mean` over a list of rationals (0 on the empty list, which the mask
code never hits). -/
def listMean (l : List ℚ) : ℚ := l.sum / l.length

/-- `np.var` (population variance, as `np.std` squares to): the mean of the
squared deviations from the mean. -/
def listVar (l : List ℚ) : ℚ := listMean (l.map (fun x => (x - listMean l) ^ 2))

/-- The sustained-instrument branch of `DrumSourceSeparator._create_temporal_mask`:
`mask = energy > np.mean(energy) + np.std(energy)`, per frame.  Since
`std = √var` is irrational, the strict inequality `e > mean + √var` is encoded
by the equivalent rational test `mean < e ∧ var < (e − mean)²`; the theorem
for C9 proves this encoding equal to the √-threshold form over `ℝ`. -/
def sustainedMaskActive (energy : List ℚ) (e : ℚ) : Bool :=
  decide (listMean energy < e) && decide (listVar energy < (e - listMean energy) ^ 2)

/-- The sustained-instrument temporal mask over all frames. -/
def sustainedMask (energy : List ℚ) : List Bool :=
  energy.map (sustainedMaskActive energy)

/-- Definition following the spec's words, for comparison with
`sustainedMaskActive`: the 60th percentile of the band's frame energies, with
the standard (numpy-default) linear interpolation between order statistics. -/
def percentile60 (l : List ℚ) : ℚ :=
  let s := List.insertionSort (· ≤ ·) l
  match s with
  | [] => 0
  | _ :: _ =>
    let r : ℚ := (3/5) * (s.length - 1)
    let i : ℕ := (Int.floor r).toNat
    let a := s.getD i 0
    let b := s.getD (i + 1) a
    a + (r - i) * (b - a)

/-- Definition following the spec's words, for comparison with
`sustainedMaskActive`: a frame is active exactly when the band's frame energy
exceeds the 60th percentile of the band's frame energies. -/
def specSustainedMaskActive (energy : List ℚ) (e : ℚ) : Bool :=
  decide (percentile60 energy < e)

/-! ## Theorems -/

/-- C1, counterexample: a pending `audio_extraction` job whose handler raises
"handler exploded" during poll-and-dispatch does not end up `failed` with the
message and `finished_at` set, contradicting the claim: it ends up `pending`
again, with no error message and no `finished_at`. -/
theorem C1_counterexample :
    (pollDispatchJob
        { id := 1, video_id := 1, job_type := "audio_extraction",
          status := "pending", progress := 0, error_message := none,
          started_at := none, finished_at := none, created_at := 0,
          deleted_at := none }
        (.error "handler exploded") 7).status = "pending"
    ∧ (pollDispatchJob
        { id := 1, video_id := 1, job_type := "audio_extraction",
          status := "pending", progress := 0, error_message := none,
          started_at := none, finished_at := none, created_at := 0,
          deleted_at := none }
        (.error "handler exploded") 7).status ≠ "failed"
    ∧ (pollDispatchJob
        { id := 1, video_id := 1, job_type := "audio_extraction",
          status := "pending", progress := 0, error_message := none,
          started_at := none, finished_at := none, created_at := 0,
          deleted_at := none }
        (.error "handler exploded") 7).error_message = none
    ∧ (pollDispatchJob
        { id := 1, video_id := 1, job_type := "audio_extraction",
          status := "pending", progress := 0, error_message := none,
          started_at := none, finished_at := none, created_at := 0,
          deleted_at := none }
        (.error "handler exploded") 7).finished_at = none := by
  refine ⟨rfl, ?_, rfl, rfl⟩
  decide

/-- C1, amended: on a handler exception during poll-and-dispatch the
orchestrator does not record the job as failed; because the retry counter is
hardcoded to 0, below `max_retries = 3`, `_handle_job_error` resets the job to
`pending` with progress 0 (an automatic retry on the next poll), leaving
`error_message` and `finished_at` untouched (only `started_at` was set when
the job was marked running); the branch marking the job `failed` with the
exception message and `finished_at = now` is unreachable. -/
theorem C1_handler_exception_retries (j : ProcessingJob) (e : String) (now : ℚ) :
    pollDispatchJob j (.error e) now
      = { j with status := "pending", progress := 0, started_at := some now }
    ∧ currentRetries < maxRetries := by
  constructor
  · simp [pollDispatchJob, processJob, handleJobError, updateJobStatus,
      currentRetries, maxRetries]
  · decide

/-- C5, counterexample: with `audio_extraction` completed, `audio_analysis`
running at progress 50 and `drum_detection` not started, the code reports an
overall progress of 33.3, while the claimed formula (completed-stage weights
plus the in-progress stage's progress scaled by its weight) gives 50; the
in-progress stage contributes nothing in the code. -/
theorem C5_counterexample :
    overallProgress ⟨"completed", 100⟩ ⟨"running", 50⟩ ⟨"not_started", 0⟩ = 333/10
    ∧ specOverallProgress ⟨"completed", 100⟩ ⟨"running", 50⟩ ⟨"not_started", 0⟩ = 50
    ∧ (333/10 : ℚ) ≠ 50 := by
  refine ⟨?_, ?_, by norm_num⟩
  · simp [overallProgress]
  · simp only [specOverallProgress]
    simp
    norm_num

/-- C5, amended: the overall pipeline progress counts only completed stages,
gated in dependency order — 33.3 when `audio_extraction` is completed, 33.3
more when `audio_analysis` is also completed, and 33.4 more (reaching 100.0)
when `drum_detection` is also completed; a stage that is not completed
contributes nothing, i.e. the in-progress stage's own progress is ignored. -/
theorem C5_overall_progress_counts_only_completed_stages (e a d : StageStatus) :
    overallProgress e a d
      = (if e.status = "completed" then (333 : ℚ)/10 else 0)
        + (if e.status = "completed" ∧ a.status = "completed" then (333 : ℚ)/10 else 0)
        + (if e.status = "completed" ∧ a.status = "completed" ∧ d.status = "completed"
           then (334 : ℚ)/10 else 0) := by
  simp only [overallProgress, beq_iff_eq]
  split_ifs <;> simp_all
  norm_num

/-- A guarded row update (`update ... where`) commutes with row lookup when the
update does not change the fields the lookup predicate reads. -/
theorem find?_map_of_pres {α : Type} (l : List α) (p : α → Bool) (u : α → α)
    (hu : ∀ a, p (u a) = p a) : (l.map u).find? p = (l.find? p).map u := by
  rw [List.find?_map]
  have h : p ∘ u = p := funext hu
  rw [h]

/-- C3: for a job that exists (non-deleted) and whose video the caller owns,
`cancel_job` succeeds exactly when the job's status is `pending` or `running`
(raising an error for every other status), and after a successful cancel the
job row has status `failed`, `error_message = "Job cancelled by user"`, and
`finished_at = now`. -/
theorem C3_cancel_iff_pending_or_running (db : JobsDB) (jobId userId : Nat)
    (now : ℚ) (job : ProcessingJob) (v : Video)
    (hjob : jobFind db jobId = some job)
    (hv : videoGetById db job.video_id = some v)
    (howner : v.user_id = userId) :
    ((cancelJob db jobId userId now).isOk = true
      ↔ (job.status = "pending" ∨ job.status = "running"))
    ∧ ∀ db', cancelJob db jobId userId now = .ok db' →
        jobFind db' jobId = some { job with
                                    status := "failed",
                                    error_message := some "Job cancelled by user",
                                    finished_at := some now } := by
  have hget : getJobById db jobId (some userId) = .ok (some job) := by
    simp [getJobById, hjob, hv, howner]
  have hid : (job.id == jobId) = true := by
    have := List.find?_some hjob
    simp only [Bool.and_eq_true] at this
    exact this.1
  have hid' : job.id = jobId := by simpa using hid
  by_cases h : job.status = "pending" ∨ job.status = "running"
  · have hb : (job.status == "pending" || job.status == "running") = true := by
      rcases h with h | h <;> simp [h]
    constructor
    · simp [cancelJob, hget, hb, Except.isOk, Except.toBool, h]
    · intro db' hdb'
      simp only [cancelJob, hget, hb, if_true, Except.ok.injEq] at hdb'
      subst hdb'
      simp only [jobFind]
      rw [find?_map_of_pres]
      · rw [show db.jobs.find? (fun j => j.id == jobId && j.deleted_at == none)
            = some job from hjob]
        simp [hid']
      · intro a
        by_cases ha : a.id = jobId <;> simp [ha]
  · have hb : (job.status == "pending" || job.status == "running") = false := by
      push_neg at h
      simp [h.1, h.2]
    constructor
    · simp [cancelJob, hget, hb, Except.isOk, Except.toBool, h]
    · intro db' hdb'
      simp [cancelJob, hget, hb] at hdb'

/-- C3, witness: cancelling a concrete pending job owned by the caller
succeeds. -/
theorem C3_witness :
    (cancelJob
      { videos := [{ id := 1, user_id := 1, filename := "v.mp4", deleted_at := none }],
        jobs := [{ id := 1, video_id := 1, job_type := "audio_extraction",
                   status := "pending", progress := 0, error_message := none,
                   started_at := none, finished_at := none, created_at := 0,
                   deleted_at := none }] }
      1 1 9).isOk = true :=
  (C3_cancel_iff_pending_or_running
    { videos := [{ id := 1, user_id := 1, filename := "v.mp4", deleted_at := none }],
      jobs := [{ id := 1, video_id := 1, job_type := "audio_extraction",
                 status := "pending", progress := 0, error_message := none,
                 started_at := none, finished_at := none, created_at := 0,
                 deleted_at := none }] }
    1 1 9
    { id := 1, video_id := 1, job_type := "audio_extraction",
      status := "pending", progress := 0, error_message := none,
      started_at := none, finished_at := none, created_at := 0,
      deleted_at := none }
    { id := 1, user_id := 1, filename := "v.mp4", deleted_at := none }
    rfl rfl rfl).1.mpr (Or.inl rfl)

/-- C4: for a job that exists (non-deleted) and whose video the caller owns,
`retry_job` succeeds exactly when the job's status is `failed` (raising an
error for every other status), and after a successful retry the returned job
has status `pending`, progress 0, and `error_message`, `started_at`,
`finished_at` all cleared to `None`. -/
theorem C4_retry_iff_failed (db : JobsDB) (jobId userId : Nat)
    (job : ProcessingJob) (v : Video)
    (hjob : jobFind db jobId = some job)
    (hv : videoGetById db job.video_id = some v)
    (howner : v.user_id = userId) :
    ((retryJob db jobId userId).isOk = true ↔ job.status = "failed")
    ∧ ∀ db' jo, retryJob db jobId userId = .ok (db', jo) →
        jo = some { job with
                     status := "pending", progress := 0, error_message := none,
                     started_at := none, finished_at := none }
        ∧ jobFind db' jobId = some { job with
                                     status := "pending", progress := 0,
                                     error_message := none,
                                     started_at := none, finished_at := none } := by
  have hget : getJobById db jobId (some userId) = .ok (some job) := by
    simp [getJobById, hjob, hv, howner]
  have hid : (job.id == jobId) = true := by
    have := List.find?_some hjob
    simp only [Bool.and_eq_true] at this
    exact this.1
  have hid' : job.id = jobId := by simpa using hid
  by_cases h : job.status = "failed"
  · have hfind : ∀ db₀ : JobsDB, db₀.jobs = db.jobs.map (fun j =>
        if j.id == jobId then
          { j with status := "pending", progress := 0, error_message := none,
                   started_at := none, finished_at := none }
        else j) →
        jobFind db₀ jobId = some { job with
                                    status := "pending", progress := 0,
                                    error_message := none,
                                    started_at := none, finished_at := none } := by
      intro db₀ hdb₀
      show db₀.jobs.find? _ = _
      rw [hdb₀, find?_map_of_pres]
      · rw [show db.jobs.find? (fun j => j.id == jobId && j.deleted_at == none)
            = some job from hjob]
        simp [hid']
      · intro a
        by_cases ha : a.id = jobId <;> simp [ha]
    constructor
    · simp [retryJob, hget, h, Except.isOk, Except.toBool]
    · intro db' jo hdb'
      simp only [retryJob, hget, h, beq_self_eq_true, if_true,
        Except.ok.injEq, Prod.mk.injEq] at hdb'
      obtain ⟨hdb, hjo⟩ := hdb'
      subst hdb
      have hf := hfind
        { db with jobs := db.jobs.map (fun j =>
            if j.id == jobId then
              { j with status := "pending", progress := 0, error_message := none,
                       started_at := none, finished_at := none }
            else j) } rfl
      exact ⟨by rw [← hjo]; exact hf, hf⟩
  · have hb : (job.status == "failed") = false := by simp [h]
    constructor
    · simp [retryJob, hget, hb, Except.isOk, Except.toBool, h]
    · intro db' jo hdb'
      simp [retryJob, hget, hb] at hdb'

/-- C4, witness: retrying a concrete failed job owned by the caller succeeds. -/
theorem C4_witness :
    (retryJob
      { videos := [{ id := 1, user_id := 1, filename := "v.mp4", deleted_at := none }],
        jobs := [{ id := 1, video_id := 1, job_type := "audio_extraction",
                   status := "failed", progress := 40,
                   error_message := some "boom", started_at := some 1,
                   finished_at := some 2, created_at := 0,
                   deleted_at := none }] }
      1 1).isOk = true :=
  (C4_retry_iff_failed
    { videos := [{ id := 1, user_id := 1, filename := "v.mp4", deleted_at := none }],
      jobs := [{ id := 1, video_id := 1, job_type := "audio_extraction",
                 status := "failed", progress := 40,
                 error_message := some "boom", started_at := some 1,
                 finished_at := some 2, created_at := 0,
                 deleted_at := none }] }
    1 1
    { id := 1, video_id := 1, job_type := "audio_extraction",
      status := "failed", progress := 40, error_message := some "boom",
      started_at := some 1, finished_at := some 2, created_at := 0,
      deleted_at := none }
    { id := 1, user_id := 1, filename := "v.mp4", deleted_at := none }
    rfl rfl rfl).1.mpr rfl

/-- When two or more non-deleted rows match, the `scalar_one_or_none` at the
end of `get_job_by_video_and_type` raises `MultipleResultsFound`. -/
theorem getJobByVideoAndType_error_of_two (db : JobsDB) (videoId : Nat)
    (jobType : String)
    (h2 : 2 ≤ (db.jobs.filter (fun j =>
      j.video_id == videoId && j.job_type == jobType && j.deleted_at == none)).length) :
    getJobByVideoAndType db videoId jobType = .error .multipleResultsFound := by
  simp only [getJobByVideoAndType]
  split
  · next heq =>
    exfalso
    have hl := congrArg List.length heq
    rw [(List.perm_insertionSort _ _).length_eq] at hl
    simp only [List.length_nil] at hl
    omega
  · next j heq =>
    exfalso
    have hl := congrArg List.length heq
    rw [(List.perm_insertionSort _ _).length_eq] at hl
    simp only [List.length_cons, List.length_nil] at hl
    omega
  · rfl

/-- C10: `get_job_by_video_and_type` returns `None` when no non-deleted job of
the given type exists for the video, returns the job when exactly one exists,
and raises `MultipleResultsFound` (rather than returning the most recent) when
two or more exist; consequently the dependency check in
`create_audio_analysis_job` and `create_drum_detection_job` errors whenever a
video has two or more `audio_extraction` jobs. -/
theorem C10_lookup_raises_on_multiple (db : JobsDB) (videoId : Nat)
    (jobType : String) :
    ((db.jobs.filter (fun j =>
        j.video_id == videoId && j.job_type == jobType && j.deleted_at == none)) = []
      → getJobByVideoAndType db videoId jobType = .ok none)
    ∧ (∀ j, (db.jobs.filter (fun j =>
        j.video_id == videoId && j.job_type == jobType && j.deleted_at == none)) = [j]
      → getJobByVideoAndType db videoId jobType = .ok (some j))
    ∧ (2 ≤ (db.jobs.filter (fun j =>
        j.video_id == videoId && j.job_type == jobType && j.deleted_at == none)).length
      → getJobByVideoAndType db videoId jobType = .error .multipleResultsFound)
    ∧ (∀ (userId newId : Nat) (now : ℚ) (v : Video),
        videoGetById db videoId = some v → v.user_id = userId →
        2 ≤ (db.jobs.filter (fun j =>
          j.video_id == videoId && j.job_type == "audio_extraction"
            && j.deleted_at == none)).length →
        createAudioAnalysisJob db videoId userId newId now
            = .error .multipleResultsFound
          ∧ createDrumDetectionJob db videoId userId newId now
            = .error .multipleResultsFound) := by
  refine ⟨?_, ?_, ?_, ?_⟩
  · intro h
    simp [getJobByVideoAndType, h]
  · intro j h
    simp [getJobByVideoAndType, h, List.insertionSort]
  · exact getJobByVideoAndType_error_of_two db videoId jobType
  · intro userId newId now v hv howner h2
    have herr := getJobByVideoAndType_error_of_two db videoId "audio_extraction" h2
    constructor
    · simp [createAudioAnalysisJob, hv, howner, herr]
    · simp [createDrumDetectionJob, hv, howner, herr]

/-- C10, witness: on an empty database the lookup returns `None`; on a
database holding two non-deleted `audio_extraction` jobs for video 1 the
lookup raises `MultipleResultsFound` and `create_drum_detection_job` fails
with that error instead of checking the dependency. -/
theorem C10_witness :
    getJobByVideoAndType { videos := [], jobs := [] } 1 "audio_extraction" = .ok none
    ∧ getJobByVideoAndType
        { videos := [{ id := 1, user_id := 1, filename := "v.mp4", deleted_at := none }],
          jobs := [{ id := 1, video_id := 1, job_type := "audio_extraction",
                     status := "completed", progress := 100, error_message := none,
                     started_at := some 0, finished_at := some 1, created_at := 0,
                     deleted_at := none },
                   { id := 2, video_id := 1, job_type := "audio_extraction",
                     status := "completed", progress := 100, error_message := none,
                     started_at := some 2, finished_at := some 3, created_at := 2,
                     deleted_at := none }] }
        1 "audio_extraction" = .error .multipleResultsFound
    ∧ createDrumDetectionJob
        { videos := [{ id := 1, user_id := 1, filename := "v.mp4", deleted_at := none }],
          jobs := [{ id := 1, video_id := 1, job_type := "audio_extraction",
                     status := "completed", progress := 100, error_message := none,
                     started_at := some 0, finished_at := some 1, created_at := 0,
                     deleted_at := none },
                   { id := 2, video_id := 1, job_type := "audio_extraction",
                     status := "completed", progress := 100, error_message := none,
                     started_at := some 2, finished_at := some 3, created_at := 2,
                     deleted_at := none }] }
        1 1 3 9 = .error .multipleResultsFound := by
  refine ⟨(C10_lookup_raises_on_multiple { videos := [], jobs := [] } 1
    "audio_extraction").1 rfl, ?_, ?_⟩
  · exact (C10_lookup_raises_on_multiple
      { videos := [{ id := 1, user_id := 1, filename := "v.mp4", deleted_at := none }],
          jobs := [{ id := 1, video_id := 1, job_type := "audio_extraction",
                     status := "completed", progress := 100, error_message := none,
                     started_at := some 0, finished_at := some 1, created_at := 0,
                     deleted_at := none },
                   { id := 2, video_id := 1, job_type := "audio_extraction",
                     status := "completed", progress := 100, error_message := none,
                     started_at := some 2, finished_at := some 3, created_at := 2,
                     deleted_at := none }] }
      1 "audio_extraction").2.2.1 (by decide)
  · exact ((C10_lookup_raises_on_multiple
      { videos := [{ id := 1, user_id := 1, filename := "v.mp4", deleted_at := none }],
          jobs := [{ id := 1, video_id := 1, job_type := "audio_extraction",
                     status := "completed", progress := 100, error_message := none,
                     started_at := some 0, finished_at := some 1, created_at := 0,
                     deleted_at := none },
                   { id := 2, video_id := 1, job_type := "audio_extraction",
                     status := "completed", progress := 100, error_message := none,
                     started_at := some 2, finished_at := some 3, created_at := 2,
                     deleted_at := none }] }
      1 "audio_extraction").2.2.2 1 3 9
      { id := 1, user_id := 1, filename := "v.mp4", deleted_at := none }
      rfl rfl (by decide)).2

/-- C2, counterexample: for video 1 an `audio_analysis` job is already
`pending`, yet `create_audio_analysis_job` succeeds and creates a second one —
it performs no duplicate-active-job check (only `create_audio_extraction_job`
does), contradicting the claim that every job type rejects duplicates. -/
theorem C2_counterexample :
    ((({ videos := [{ id := 1, user_id := 1, filename := "v.mp4", deleted_at := none }],
         jobs := [{ id := 1, video_id := 1, job_type := "audio_extraction",
                    status := "completed", progress := 100, error_message := none,
                    started_at := some 0, finished_at := some 1, created_at := 0,
                    deleted_at := none },
                  { id := 2, video_id := 1, job_type := "audio_analysis",
                    status := "pending", progress := 0, error_message := none,
                    started_at := none, finished_at := none, created_at := 2,
                    deleted_at := none }] } : JobsDB).jobs.filter (fun j =>
        j.video_id == 1 && j.job_type == "audio_analysis"
          && j.deleted_at == none)).map (fun j => j.status) = ["pending"])
    ∧ (createAudioAnalysisJob
        { videos := [{ id := 1, user_id := 1, filename := "v.mp4", deleted_at := none }],
          jobs := [{ id := 1, video_id := 1, job_type := "audio_extraction",
                     status := "completed", progress := 100, error_message := none,
                     started_at := some 0, finished_at := some 1, created_at := 0,
                     deleted_at := none },
                   { id := 2, video_id := 1, job_type := "audio_analysis",
                     status := "pending", progress := 0, error_message := none,
                     started_at := none, finished_at := none, created_at := 2,
                     deleted_at := none }] }
        1 1 3 5).isOk = true := by
  exact ⟨by decide, by decide⟩

/-- C2, amended: only `create_audio_extraction_job` rejects a duplicate when a
job of its type for the video is already `pending` or `running`;
`create_audio_analysis_job` and `create_drum_detection_job` perform no
duplicate check of their own type — they only require the video's
`audio_extraction` job to be `completed`, and then create a new job even when
a same-type job is already pending or running. -/
theorem C2_duplicate_check_only_for_extraction (db : JobsDB)
    (videoId userId newId : Nat) (now : ℚ) (v : Video) (j : ProcessingJob)
    (hv : videoGetById db videoId = some v)
    (howner : v.user_id = userId)
    (hj : getJobByVideoAndType db videoId "audio_extraction" = .ok (some j)) :
    (j.status = "pending" ∨ j.status = "running" →
      createAudioExtractionJob db videoId userId newId now
        = .error (.http 400 "Audio extraction job already in progress for this video"))
    ∧ (j.status = "completed" →
        createAudioAnalysisJob db videoId userId newId now
          = .ok (createJob db videoId "audio_analysis" newId now)
        ∧ createDrumDetectionJob db videoId userId newId now
          = .ok (createJob db videoId "drum_detection" newId now)) := by
  constructor
  · intro h
    have hb : (j.status == "pending" || j.status == "running") = true := by
      rcases h with h | h <;> simp [h]
    simp [createAudioExtractionJob, hv, howner, hj, hb]
  · intro h
    constructor
    · simp [createAudioAnalysisJob, hv, howner, hj, h]
    · simp [createDrumDetectionJob, hv, howner, hj, h]

/-- C2, witness: on a database where video 1's `audio_extraction` job is
`pending`, `create_audio_extraction_job` rejects with the duplicate message;
on a database where it is `completed`, `create_audio_analysis_job` succeeds. -/
theorem C2_witness :
    createAudioExtractionJob
      { videos := [{ id := 1, user_id := 1, filename := "v.mp4", deleted_at := none }],
        jobs := [{ id := 1, video_id := 1, job_type := "audio_extraction",
                   status := "pending", progress := 0, error_message := none,
                   started_at := none, finished_at := none, created_at := 0,
                   deleted_at := none }] }
      1 1 2 5
      = .error (.http 400 "Audio extraction job already in progress for this video")
    ∧ (createAudioAnalysisJob
        { videos := [{ id := 1, user_id := 1, filename := "v.mp4", deleted_at := none }],
          jobs := [{ id := 1, video_id := 1, job_type := "audio_extraction",
                     status := "completed", progress := 100, error_message := none,
                     started_at := some 0, finished_at := some 1, created_at := 0,
                     deleted_at := none }] }
        1 1 2 5).isOk = true := by
  constructor
  · exact (C2_duplicate_check_only_for_extraction
      { videos := [{ id := 1, user_id := 1, filename := "v.mp4", deleted_at := none }],
        jobs := [{ id := 1, video_id := 1, job_type := "audio_extraction",
                   status := "pending", progress := 0, error_message := none,
                   started_at := none, finished_at := none, created_at := 0,
                   deleted_at := none }] }
      1 1 2 5
      { id := 1, user_id := 1, filename := "v.mp4", deleted_at := none }
      { id := 1, video_id := 1, job_type := "audio_extraction",
        status := "pending", progress := 0, error_message := none,
        started_at := none, finished_at := none, created_at := 0,
        deleted_at := none }
      rfl rfl rfl).1 (Or.inl rfl)
  · have h := (C2_duplicate_check_only_for_extraction
      { videos := [{ id := 1, user_id := 1, filename := "v.mp4", deleted_at := none }],
        jobs := [{ id := 1, video_id := 1, job_type := "audio_extraction",
                   status := "completed", progress := 100, error_message := none,
                   started_at := some 0, finished_at := some 1, created_at := 0,
                   deleted_at := none }] }
      1 1 2 5
      { id := 1, user_id := 1, filename := "v.mp4", deleted_at := none }
      { id := 1, video_id := 1, job_type := "audio_extraction",
        status := "completed", progress := 100, error_message := none,
        started_at := some 0, finished_at := some 1, created_at := 0,
        deleted_at := none }
      rfl rfl rfl).2 rfl
    rw [h.1]
    rfl

/-- The merge loop only ever keeps candidates from its input. -/
theorem mergeOnsetsFrom_sublist (d : ℚ) : ∀ (ts : List ℚ) (last : ℚ),
    List.Sublist (mergeOnsetsFrom d last ts) ts := by
  intro ts
  induction ts with
  | nil => intro last; simp [mergeOnsetsFrom]
  | cons t ts ih =>
    intro last
    simp only [mergeOnsetsFrom]
    split
    · exact (ih t).cons₂ t
    · exact (ih last).cons t

/-- Every kept candidate is at least `d` past the previously kept one,
starting from `last`. -/
theorem mergeOnsetsFrom_chain (d : ℚ) : ∀ (ts : List ℚ) (last : ℚ),
    List.Chain' (fun a b => d ≤ b - a) (last :: mergeOnsetsFrom d last ts) := by
  intro ts
  induction ts with
  | nil => intro last; simp [mergeOnsetsFrom]
  | cons t ts ih =>
    intro last
    simp only [mergeOnsetsFrom]
    split
    · next h => exact (List.chain'_cons).mpr ⟨h, ih t⟩
    · exact ih last

/-- C6: for every pool of candidate onset times and every configured minimum
distance `d`, the merge stage of `_detect_onsets` outputs an ascending
sequence in which consecutive kept onsets differ by at least `d` (candidates
closer than `d` to the most recently kept one are dropped), every output time
is one of the input candidates, an empty candidate pool yields an empty
output, and the earliest sorted candidate is always the first one kept. -/
theorem C6_onset_merge_spacing (d : ℚ) (times : List ℚ) :
    List.Chain' (fun a b => d ≤ b - a) (detectOnsetsMerge d times)
    ∧ List.Sorted (· ≤ ·) (detectOnsetsMerge d times)
    ∧ (∀ t ∈ detectOnsetsMerge d times, t ∈ times)
    ∧ detectOnsetsMerge d [] = []
    ∧ (detectOnsetsMerge d times).head? = (List.insertionSort (· ≤ ·) times).head? := by
  rcases hs : List.insertionSort (· ≤ ·) times with _ | ⟨t, ts⟩
  · have hempty : detectOnsetsMerge d times = [] := by
      simp [detectOnsetsMerge, hs]
    refine ⟨?_, ?_, ?_, ?_, ?_⟩ <;> simp [hempty, hs, detectOnsetsMerge]
  · have hout : detectOnsetsMerge d times = t :: mergeOnsetsFrom d t ts := by
      simp [detectOnsetsMerge, hs]
    have hsub : List.Sublist (detectOnsetsMerge d times) (t :: ts) := by
      rw [hout]
      exact (mergeOnsetsFrom_sublist d ts t).cons₂ t
    have hsorted : List.Sorted (· ≤ ·) (t :: ts) := by
      rw [← hs]
      exact List.sorted_insertionSort (· ≤ ·) times
    refine ⟨?_, ?_, ?_, ?_, ?_⟩
    · rw [hout]
      exact mergeOnsetsFrom_chain d ts t
    · exact List.Pairwise.sublist hsub hsorted
    · intro x hx
      have hx' : x ∈ t :: ts := hsub.subset hx
      rw [← hs] at hx'
      exact (List.perm_insertionSort (· ≤ ·) times).subset hx'
    · simp [detectOnsetsMerge, List.insertionSort]
    · rw [hout]
      rfl



/-- The first-maximal fold returns an element of the list it scans. -/
theorem argmaxFirst_mem : ∀ (ps : List (String × ℚ)) (p : String × ℚ),
    argmaxFirst p ps ∈ p :: ps := by
  intro ps
  induction ps with
  | nil => intro p; simp [argmaxFirst]
  | cons q qs ih =>
    intro p
    have step : argmaxFirst p (q :: qs) = argmaxFirst (if p.2 < q.2 then q else p) qs := rfl
    rw [step]
    rcases List.mem_cons.mp (ih (if p.2 < q.2 then q else p)) with h | h
    · rw [h]
      split <;> simp
    · simp [h]

/-- The first-maximal fold dominates every scanned score. -/
theorem argmaxFirst_le : ∀ (ps : List (String × ℚ)) (p : String × ℚ),
    ∀ q ∈ p :: ps, q.2 ≤ (argmaxFirst p ps).2 := by
  intro ps
  induction ps with
  | nil =>
    intro p q hq
    simp only [List.mem_singleton] at hq
    simp [argmaxFirst, hq]
  | cons r qs ih =>
    intro p q hq
    have step : argmaxFirst p (r :: qs) = argmaxFirst (if p.2 < r.2 then r else p) qs := rfl
    rw [step]
    have hd : p.2 ≤ (if p.2 < r.2 then r else p).2 ∧ r.2 ≤ (if p.2 < r.2 then r else p).2 := by
      split
      · next h => exact ⟨le_of_lt h, le_refl _⟩
      · next h => exact ⟨le_refl _, not_lt.mp h⟩
    rcases List.mem_cons.mp hq with hq1 | hq2
    · subst hq1
      exact le_trans hd.1 (ih _ _ (List.mem_cons_self _ _))
    · rcases List.mem_cons.mp hq2 with hq1 | hq3
      · subst hq1
        exact le_trans hd.2 (ih _ _ (List.mem_cons_self _ _))
      · exact ih _ q (List.mem_cons_of_mem _ hq3)

/-- The score carried by the first-maximal fold is the running maximum that
`max(scores.values())` computes. -/
theorem argmaxFirst_snd : ∀ (ps : List (String × ℚ)) (p : String × ℚ),
    (argmaxFirst p ps).2 = (ps.map Prod.snd).foldl max p.2 := by
  intro ps
  induction ps with
  | nil => intro p; simp [argmaxFirst]
  | cons q qs ih =>
    intro p
    have step : argmaxFirst p (q :: qs) = argmaxFirst (if p.2 < q.2 then q else p) qs := rfl
    rw [step, ih]
    have hmax : (if p.2 < q.2 then q else p).2 = max p.2 q.2 := by
      split
      · next h => exact (max_eq_right (le_of_lt h)).symm
      · next h => exact (max_eq_left (not_lt.mp h)).symm
    rw [hmax]
    rfl

/-- Every frequency-band energy read by the classifier is non-negative when
the feature set's band energies are. -/
theorem bandEnergy_nonneg (f : OnsetFeatures)
    (hk : 0 ≤ f.kick_energy) (hsn : 0 ≤ f.snare_energy) (hhh : 0 ≤ f.hihat_energy)
    (hcr : 0 ≤ f.crash_energy) (htl : 0 ≤ f.tom_low_energy)
    (htm : 0 ≤ f.tom_mid_energy) (hth : 0 ≤ f.tom_high_energy) :
    ∀ t, 0 ≤ bandEnergy f t := by
  intro t
  unfold bandEnergy
  split <;> first | assumption | norm_num

/-- The corrective multipliers preserve non-negativity of the scores. -/
theorem adjustedScore_nonneg (f : OnsetFeatures) (hb : ∀ t, 0 ≤ bandEnergy f t) :
    ∀ t, 0 ≤ adjustedScore f t := by
  intro t
  simp only [adjustedScore]
  split_ifs <;> first | exact hb t | exact mul_nonneg (hb t) (by norm_num)

/-- C7: for every onset feature set with non-negative band energies and
non-negative RMS energy: when all adjusted instrument scores are zero the
classifier returns `("unknown", 0)`; otherwise the returned label's adjusted
score dominates every instrument's score (arg-max) and the confidence equals
`min(1, winner_score / sum_of_all_scores * 2)` (this equation holds in the
all-zero case too, both sides being 0); the confidence always lies in [0, 1];
an event is emitted only when the confidence reaches the threshold, its
confidence is the classifier's and its velocity is `min(1, rms_energy * 10)`,
both within [0, 1]; a confidence below the threshold emits nothing. -/
theorem C7_classification_bounds (f : OnsetFeatures)
    (hk : 0 ≤ f.kick_energy) (hsn : 0 ≤ f.snare_energy) (hhh : 0 ≤ f.hihat_energy)
    (hcr : 0 ≤ f.crash_energy) (htl : 0 ≤ f.tom_low_energy)
    (htm : 0 ≤ f.tom_mid_energy) (hth : 0 ≤ f.tom_high_energy)
    (hr : 0 ≤ f.rms_energy) :
    ((∀ t ∈ drumTypes, adjustedScore f t = 0) → classifySingleEvent f = ("unknown", 0))
    ∧ (∀ t ∈ drumTypes, adjustedScore f t ≤ adjustedScore f (classifySingleEvent f).1)
    ∧ (classifySingleEvent f).2
        = min 1 (adjustedScore f (classifySingleEvent f).1
            / (drumTypes.map (adjustedScore f)).sum * 2)
    ∧ (0 ≤ (classifySingleEvent f).2 ∧ (classifySingleEvent f).2 ≤ 1)
    ∧ (∀ (threshold onsetTime : ℚ) (ev : DrumEvent),
        classifyOnset threshold onsetTime f = some ev →
        threshold ≤ ev.confidence ∧ ev.confidence = (classifySingleEvent f).2
          ∧ 0 ≤ ev.confidence ∧ ev.confidence ≤ 1
          ∧ ev.velocity = min 1 (f.rms_energy * 10)
          ∧ 0 ≤ ev.velocity ∧ ev.velocity ≤ 1)
    ∧ (∀ (threshold onsetTime : ℚ), (classifySingleEvent f).2 < threshold →
        classifyOnset threshold onsetTime f = none) := by
  have hb : ∀ t, 0 ≤ bandEnergy f t := bandEnergy_nonneg f hk hsn hhh hcr htl htm hth
  have ha : ∀ t, 0 ≤ adjustedScore f t := adjustedScore_nonneg f hb
  have key : ((∀ t ∈ drumTypes, adjustedScore f t = 0)
        → classifySingleEvent f = ("unknown", 0))
      ∧ (∀ t ∈ drumTypes, adjustedScore f t ≤ adjustedScore f (classifySingleEvent f).1)
      ∧ (classifySingleEvent f).2
          = min 1 (adjustedScore f (classifySingleEvent f).1
              / (drumTypes.map (adjustedScore f)).sum * 2)
      ∧ (0 ≤ (classifySingleEvent f).2 ∧ (classifySingleEvent f).2 ≤ 1) := by
    rcases hsc : scoresList f with _ | ⟨p, ps⟩
    · exfalso
      have hlen := congrArg List.length hsc
      simp [scoresList, drumTypes] at hlen
    have hmem : argmaxFirst p ps ∈ scoresList f := by
      rw [hsc]; exact argmaxFirst_mem ps p
    obtain ⟨t0, ht0, hg⟩ := List.mem_map.mp hmem
    have hbest1 : (argmaxFirst p ps).1 = t0 := by rw [← hg]
    have hbest2 : (argmaxFirst p ps).2 = adjustedScore f (argmaxFirst p ps).1 := by
      rw [← hg]
    have hle : ∀ t ∈ drumTypes, adjustedScore f t ≤ (argmaxFirst p ps).2 := by
      intro t ht
      have hmt : (t, adjustedScore f t) ∈ scoresList f :=
        List.mem_map_of_mem _ ht
      rw [hsc] at hmt
      exact argmaxFirst_le ps p _ hmt
    have hm : (argmaxFirst p ps).2 = (ps.map Prod.snd).foldl max p.2 :=
      argmaxFirst_snd ps p
    have htotal_eq : ((p :: ps).map Prod.snd) = drumTypes.map (adjustedScore f) := by
      rw [← hsc]
      simp [scoresList, List.map_map, Function.comp]
    have hclass : classifySingleEvent f =
        (if (ps.map Prod.snd).foldl max p.2 = 0 then (("unknown" : String), (0 : ℚ))
         else ((argmaxFirst p ps).1,
           min 1 ((if 0 < ((p :: ps).map Prod.snd).sum
                   then (argmaxFirst p ps).2 / ((p :: ps).map Prod.snd).sum
                   else 0) * 2))) := by
      simp only [classifySingleEvent, hsc]
    by_cases hmz : (ps.map Prod.snd).foldl max p.2 = 0
    · have hres : classifySingleEvent f = ("unknown", 0) := by
        rw [hclass, if_pos hmz]
      have hunk : adjustedScore f "unknown" = 0 := rfl
      refine ⟨fun _ => hres, ?_, ?_, ?_⟩
      · intro t ht
        rw [hres]
        show adjustedScore f t ≤ adjustedScore f "unknown"
        rw [hunk]
        calc adjustedScore f t ≤ (argmaxFirst p ps).2 := hle t ht
          _ = 0 := by rw [hm, hmz]
      · rw [hres]
        show (0 : ℚ) = min 1 (adjustedScore f "unknown"
          / (drumTypes.map (adjustedScore f)).sum * 2)
        rw [hunk]
        norm_num
      · rw [hres]
        norm_num
    · have hsum_nonneg : (0 : ℚ) ≤ ((p :: ps).map Prod.snd).sum := by
        apply List.sum_nonneg
        intro x hx
        rw [htotal_eq] at hx
        obtain ⟨t, _, rfl⟩ := List.mem_map.mp hx
        exact ha t
      have hbest_nonneg : 0 ≤ (argmaxFirst p ps).2 := by
        rw [hbest2]; exact ha _
      have hbest_pos : 0 < (argmaxFirst p ps).2 := by
        rcases lt_or_eq_of_le hbest_nonneg with h | h
        · exact h
        · exfalso; apply hmz; rw [← hm, ← h]
      have hbest_mem_snd : (argmaxFirst p ps).2 ∈ (p :: ps).map Prod.snd := by
        rw [← hsc]
        exact List.mem_map_of_mem Prod.snd hmem
      have hbest_le_sum : (argmaxFirst p ps).2 ≤ ((p :: ps).map Prod.snd).sum := by
        apply List.single_le_sum _ _ hbest_mem_snd
        intro x hx
        rw [htotal_eq] at hx
        obtain ⟨t, _, rfl⟩ := List.mem_map.mp hx
        exact ha t
      have hsum_pos : 0 < ((p :: ps).map Prod.snd).sum :=
        lt_of_lt_of_le hbest_pos hbest_le_sum
      have hres : classifySingleEvent f = ((argmaxFirst p ps).1,
          min 1 ((argmaxFirst p ps).2 / ((p :: ps).map Prod.snd).sum * 2)) := by
        rw [hclass, if_neg hmz, if_pos hsum_pos]
      refine ⟨?_, ?_, ?_, ?_⟩
      · intro hall
        exfalso
        have h0 : adjustedScore f (argmaxFirst p ps).1 = 0 := by
          rw [hbest1]; exact hall t0 ht0
        rw [hbest2, h0] at hbest_pos
        exact lt_irrefl 0 hbest_pos
      · intro t ht
        rw [hres]
        show adjustedScore f t ≤ adjustedScore f (argmaxFirst p ps).1
        rw [← hbest2]
        exact hle t ht
      · rw [hres]
        show min 1 ((argmaxFirst p ps).2 / ((p :: ps).map Prod.snd).sum * 2)
          = min 1 (adjustedScore f (argmaxFirst p ps).1
              / (drumTypes.map (adjustedScore f)).sum * 2)
        rw [← hbest2, ← htotal_eq]
      · rw [hres]
        constructor
        · apply le_min (by norm_num)
          apply mul_nonneg _ (by norm_num)
          exact div_nonneg hbest_nonneg hsum_nonneg
        · exact min_le_left _ _
  have hvel0 : (0 : ℚ) ≤ min 1 (f.rms_energy * 10) :=
    le_min (by norm_num) (by nlinarith)
  have hvel1 : min 1 (f.rms_energy * 10) ≤ (1 : ℚ) := min_le_left _ _
  refine ⟨key.1, key.2.1, key.2.2.1, key.2.2.2, ?_, ?_⟩
  · intro th t0 ev hev
    simp only [classifyOnset] at hev
    by_cases hth : th ≤ (classifySingleEvent f).2
    · rw [if_pos hth] at hev
      obtain rfl := Option.some.injEq _ _ |>.mp hev |>.symm
      exact ⟨hth, rfl, key.2.2.2.1, key.2.2.2.2, rfl, hvel0, hvel1⟩
    · rw [if_neg hth] at hev
      cases hev
  · intro th t0 hlt
    simp only [classifyOnset]
    rw [if_neg (not_le.mpr hlt)]

/-- C7, witness: the classifier's confidence lies in [0, 1] on a concrete
kick-only feature set. -/
theorem C7_witness :
    0 ≤ (classifySingleEvent
      { spectral_centroid := 100, spectral_rolloff := 0,
        zero_crossing_rate := 0, rms_energy := 1/20,
        kick_energy := 1, snare_energy := 0, hihat_energy := 0,
        crash_energy := 0, tom_low_energy := 0, tom_mid_energy := 0,
        tom_high_energy := 0 }).2
    ∧ (classifySingleEvent
      { spectral_centroid := 100, spectral_rolloff := 0,
        zero_crossing_rate := 0, rms_energy := 1/20,
        kick_energy := 1, snare_energy := 0, hihat_energy := 0,
        crash_energy := 0, tom_low_energy := 0, tom_mid_energy := 0,
        tom_high_energy := 0 }).2 ≤ 1 :=
  (C7_classification_bounds
    { spectral_centroid := 100, spectral_rolloff := 0,
      zero_crossing_rate := 0, rms_energy := 1/20,
      kick_energy := 1, snare_energy := 0, hihat_energy := 0,
      crash_energy := 0, tom_low_energy := 0, tom_mid_energy := 0,
      tom_high_energy := 0 }
    (by norm_num) (by norm_num) (by norm_num) (by norm_num) (by norm_num)
    (by norm_num) (by norm_num) (by norm_num)).2.2.2.1

/-- Smoothing changes neither the length of the event list nor any field other
than velocity, and rewrites velocities by the source's sequential rule: the
current event's velocity becomes the average of the previous (already
smoothed) velocity and its own exactly when the pair is close and same-typed. -/
theorem smoothRun_spec (d : DrumEvent) :
    ∀ (l : List DrumEvent) (prev : DrumEvent),
      ((smoothRun prev l).length = l.length)
      ∧ (∀ i, ((smoothRun prev l).getD i d).timestamp = (l.getD i d).timestamp
          ∧ ((smoothRun prev l).getD i d).drum_type = (l.getD i d).drum_type)
      ∧ (0 < l.length →
          ((smoothRun prev l).getD 0 d).velocity =
            (if (l.getD 0 d).timestamp - prev.timestamp < 1/10
                ∧ (l.getD 0 d).drum_type = prev.drum_type
             then (prev.velocity + (l.getD 0 d).velocity) / 2
             else (l.getD 0 d).velocity))
      ∧ (∀ i, i + 1 < l.length →
          ((smoothRun prev l).getD (i+1) d).velocity =
            (if (l.getD (i+1) d).timestamp - (l.getD i d).timestamp < 1/10
                ∧ (l.getD (i+1) d).drum_type = (l.getD i d).drum_type
             then (((smoothRun prev l).getD i d).velocity
                     + (l.getD (i+1) d).velocity) / 2
             else (l.getD (i+1) d).velocity)) := by
  intro l
  induction l with
  | nil =>
    intro prev
    refine ⟨rfl, ?_, ?_, ?_⟩
    · intro i; exact ⟨rfl, rfl⟩
    · intro h; simp at h
    · intro i hi; simp at hi
  | cons c cs ih =>
    intro prev
    have hrun : smoothRun prev (c :: cs) =
        (if decide (c.timestamp - prev.timestamp < 1/10)
            && (c.drum_type == prev.drum_type)
         then { c with velocity := (prev.velocity + c.velocity) / 2 }
         else c) :: smoothRun
          (if decide (c.timestamp - prev.timestamp < 1/10)
              && (c.drum_type == prev.drum_type)
           then { c with velocity := (prev.velocity + c.velocity) / 2 }
           else c) cs := rfl
    by_cases hcond : c.timestamp - prev.timestamp < 1/10 ∧ c.drum_type = prev.drum_type
    · have hcb : (decide (c.timestamp - prev.timestamp < 1/10)
          && (c.drum_type == prev.drum_type)) = true := by
        simp only [Bool.and_eq_true, decide_eq_true_eq, beq_iff_eq]
        exact ⟨hcond.1, hcond.2⟩
      rw [hcb] at hrun
      simp only [if_true] at hrun
      obtain ⟨ihlen, ihfields, ihhead, ihstep⟩ :=
        ih { c with velocity := (prev.velocity + c.velocity) / 2 }
      refine ⟨?_, ?_, ?_, ?_⟩
      · rw [hrun]; simp [ihlen]
      · intro i
        cases i with
        | zero => rw [hrun]; exact ⟨rfl, rfl⟩
        | succ j => rw [hrun]; simpa using ihfields j
      · intro _
        rw [hrun]
        simp only [List.getD_cons_zero]
        rw [if_pos hcond]
      · intro i hi
        cases i with
        | zero =>
          rw [hrun]
          simp only [List.getD_cons_succ, List.getD_cons_zero]
          have hlen : 0 < cs.length := by
            simp at hi; omega
          exact ihhead hlen
        | succ j =>
          rw [hrun]
          simp only [List.getD_cons_succ]
          have hlen : j + 1 < cs.length := by
            simp at hi; omega
          exact ihstep j hlen
    · have hcb : (decide (c.timestamp - prev.timestamp < 1/10)
          && (c.drum_type == prev.drum_type)) = false := by
        rw [Bool.eq_false_iff]
        simp only [ne_eq, Bool.and_eq_true, decide_eq_true_eq, beq_iff_eq]
        exact hcond
      rw [hcb] at hrun
      simp only [Bool.false_eq_true, if_false] at hrun
      obtain ⟨ihlen, ihfields, ihhead, ihstep⟩ := ih c
      refine ⟨?_, ?_, ?_, ?_⟩
      · rw [hrun]; simp [ihlen]
      · intro i
        cases i with
        | zero => rw [hrun]; exact ⟨rfl, rfl⟩
        | succ j => rw [hrun]; simpa using ihfields j
      · intro _
        rw [hrun]
        simp only [List.getD_cons_zero]
        rw [if_neg hcond]
      · intro i hi
        cases i with
        | zero =>
          rw [hrun]
          simp only [List.getD_cons_succ, List.getD_cons_zero]
          have hlen : 0 < cs.length := by
            simp at hi; omega
          exact ihhead hlen
        | succ j =>
          rw [hrun]
          simp only [List.getD_cons_succ]
          have hlen : j + 1 < cs.length := by
            simp at hi; omega
          exact ihstep j hlen

/-- C8, counterexample: two kept snare events 50 ms apart with velocities 0.2
and 0.4; after post-processing the later event's velocity is the average 0.3
but the earlier event keeps its velocity 0.2, contradicting the claim that
both velocities are replaced by the average. -/
theorem C8_counterexample :
    (postProcessEvents
        [{ timestamp := 0, drum_type := "snare", confidence := 1,
           velocity := 1/5, frequency := none, duration := none },
         { timestamp := 1/20, drum_type := "snare", confidence := 1,
           velocity := 2/5, frequency := none, duration := none }]).map
      DrumEvent.velocity = [1/5, 3/10]
    ∧ (1/20 : ℚ) - 0 < 1/10
    ∧ (1/5 : ℚ) ≠ (1/5 + 2/5) / 2 := by
  refine ⟨?_, by norm_num, by norm_num⟩
  norm_num [postProcessEvents, velocityThreshold, dedupEvents, dedupStep,
    smoothVelocities, smoothRun, List.insertionSort, List.orderedInsert]
  simp

/-- C8, amended: in the velocity-smoothing step, for every adjacent pair of
kept events of the same instrument whose timestamps are less than 100 ms
apart, only the later event's velocity is replaced — it becomes the average of
the earlier event's current (possibly already smoothed) velocity and its own —
while the earlier event's velocity is left unchanged; pairs not matching the
condition are untouched, and timestamps, drum types, list length and the first
event are never modified. -/
theorem C8_smoothing_replaces_only_later (l : List DrumEvent) (d : DrumEvent)
    (i : ℕ) (hi : i + 1 < l.length) :
    (smoothVelocities l).length = l.length
    ∧ (smoothVelocities l).getD 0 d = l.getD 0 d
    ∧ ((smoothVelocities l).getD (i+1) d).timestamp = (l.getD (i+1) d).timestamp
    ∧ ((smoothVelocities l).getD (i+1) d).drum_type = (l.getD (i+1) d).drum_type
    ∧ ((smoothVelocities l).getD (i+1) d).velocity =
        (if (l.getD (i+1) d).timestamp - (l.getD i d).timestamp < 1/10
            ∧ (l.getD (i+1) d).drum_type = (l.getD i d).drum_type
         then (((smoothVelocities l).getD i d).velocity
                 + (l.getD (i+1) d).velocity) / 2
         else (l.getD (i+1) d).velocity) := by
  cases l with
  | nil => simp at hi
  | cons c cs =>
    obtain ⟨hlen, hfields, hhead, hstep⟩ := smoothRun_spec d cs c
    have hsm : smoothVelocities (c :: cs) = c :: smoothRun c cs := rfl
    refine ⟨?_, ?_, ?_, ?_, ?_⟩
    · rw [hsm]; simp [hlen]
    · rw [hsm]; rfl
    · rw [hsm]
      simp only [List.getD_cons_succ]
      exact (hfields i).1
    · rw [hsm]
      simp only [List.getD_cons_succ]
      exact (hfields i).2
    · rw [hsm]
      cases i with
      | zero =>
        simp only [List.getD_cons_succ, List.getD_cons_zero]
        exact hhead (by simp at hi; omega)
      | succ j =>
        simp only [List.getD_cons_succ]
        exact hstep j (by simp at hi; omega)

/-- C8, witness: on the two concrete snare events of the counterexample, the
later event's smoothed velocity is the average of the two. -/
theorem C8_witness :
    ((smoothVelocities
        [{ timestamp := 0, drum_type := "snare", confidence := 1,
           velocity := 1/5, frequency := none, duration := none },
         { timestamp := 1/20, drum_type := "snare", confidence := 1,
           velocity := 2/5, frequency := none, duration := none }]).getD 1
        { timestamp := 0, drum_type := "snare", confidence := 1,
          velocity := 1/5, frequency := none, duration := none }).velocity
      = (1/5 + 2/5) / 2 := by
  have h := (C8_smoothing_replaces_only_later
    [{ timestamp := 0, drum_type := "snare", confidence := 1,
       velocity := 1/5, frequency := none, duration := none },
     { timestamp := 1/20, drum_type := "snare", confidence := 1,
       velocity := 2/5, frequency := none, duration := none }]
    { timestamp := 0, drum_type := "snare", confidence := 1,
      velocity := 1/5, frequency := none, duration := none }
    0 (by norm_num)).2.2.2.2
  rw [h]
  norm_num [smoothVelocities, smoothRun]

/-- C9, amended: in spectral-masking separation, the sustained-instrument
temporal mask marks a frame active exactly when the band's frame energy
strictly exceeds the mean plus one standard deviation (`√variance`) of the
band's frame energies — not the 60th percentile. -/
theorem C9_mask_is_mean_plus_std (energy : List ℚ) (e : ℚ) :
    sustainedMaskActive energy e = true
      ↔ ((listMean energy : ℝ) + Real.sqrt ((listVar energy : ℚ) : ℝ) < (e : ℝ)) := by
  unfold sustainedMaskActive
  simp only [Bool.and_eq_true, decide_eq_true_eq]
  constructor
  · rintro ⟨h1, h2⟩
    have hd : (0:ℝ) < (e:ℝ) - (listMean energy : ℝ) := by
      have := sub_pos.mpr h1
      exact_mod_cast this
    have h2' : ((listVar energy : ℚ) : ℝ) < ((e:ℝ) - (listMean energy : ℝ))^2 := by
      exact_mod_cast h2
    have hs := (Real.sqrt_lt' hd).mpr h2'
    linarith
  · intro h
    have hs := Real.sqrt_nonneg ((listVar energy : ℚ) : ℝ)
    have hd : (0:ℝ) < (e:ℝ) - (listMean energy:ℝ) := by linarith
    have h2 := (Real.sqrt_lt' hd).mp (by linarith)
    constructor
    · have hlt : (listMean energy : ℝ) < (e : ℝ) := by linarith
      exact_mod_cast hlt
    · have hlt : ((listVar energy : ℚ) : ℝ) < (((e - listMean energy : ℚ)) : ℝ)^2 := by
        push_cast
        convert h2 using 2
      exact_mod_cast hlt

/-- C9, counterexample: on the band energies [0, 0, 4, 4] the frame with
energy 4 is inactive under the code's mean-plus-standard-deviation mask
(threshold 2 + 2 = 4 is not exceeded), while the spec's 60th-percentile mask
(percentile 3.2) would mark it active. -/
theorem C9_counterexample :
    sustainedMaskActive [0, 0, 4, 4] 4 = false
    ∧ specSustainedMaskActive [0, 0, 4, 4] 4 = true
    ∧ percentile60 [0, 0, 4, 4] = 16/5 := by
  have hfloor : (⌊(3/5 : ℚ) * (([0, 0, 4, 4] : List ℚ).length - 1)⌋ : ℤ) = 1 := by
    norm_num [Int.floor_eq_iff]
  refine ⟨?_, ?_, ?_⟩
  · norm_num [sustainedMaskActive, listMean, listVar]
  · norm_num [specSustainedMaskActive, percentile60, List.insertionSort,
      List.orderedInsert, hfloor]
  · norm_num [percentile60, List.insertionSort, List.orderedInsert, hfloor]
